import Mathlib

/-!
Verification of the ZK Memory card game engine.

Shallow embedding of the commitment-verified matching-game engine:

* the Soroban contract (CardState, GameState, Error, start_game, flip_card,
  verify_card_reveal_proof) as given in the implementation plan document;
* the client pipeline (deckUtils.ts generateCommitment over SHA-256 of a JSON
  string, noirProofGen.ts salt-to-field preparation, the deck-data export of
  ZkMemoryGame.tsx handleCreateGame, and the retry loop of handleFlipCard).

Machine integers (u32, i128) are modelled as Nat / Int; no operation in the
contract can overflow (scores and pair counts are bounded by 8, positions are
compared against 16 before use), so no wrap-around modelling is required.
Soroban panics abort the transaction and leave storage untouched; they are
modelled by an Except error result, and storage-level semantics by an explicit
store transformer.
-/

namespace ZkMemory

/-- Per-position card status of the contract: a card is persisted either as
face-down or as matched; there is no persisted face-up state. -/
inductive CardState
  | FaceDown
  | Matched
deriving DecidableEq, Repr

/-- The contract's per-session aggregate state, field for field. Addresses and
32-byte values are modelled as Nat. -/
structure GameState where
  session_id : Nat
  player1 : Nat
  player2 : Nat
  deck_commitment : Nat
  cards : List CardState
  score1 : Nat
  score2 : Nat
  current_turn : Nat
  flip_one : Option Nat
  flip_one_value : Option Nat
  pairs_found : Nat
  is_active : Bool
deriving DecidableEq, Repr

/-- The typed error codes of the contract (codes 1 to 7 of the generated
bindings; the plan's enum lists the first six, the bindings add NotPlayer). -/
inductive Error
  | GameNotFound
  | GameNotActive
  | NotYourTurn
  | CardAlreadyMatched
  | InvalidProof
  | InvalidPosition
  | NotPlayer
deriving DecidableEq, Repr

/-- Result of an accepted flip: the stored game state, together with the
argument of the Game Hub end_game notification when one was issued
(the boolean is player1_won). -/
structure FlipResult where
  game : GameState
  end_game_call : Option Bool
deriving DecidableEq, Repr

/-- The contract's proof verifier as implemented: the development accept-all
stub. The body of verify_card_reveal_proof holds only a comment block (the
BN254 pairing check is left as future work), so the function returns without
panicking on every input, i.e. it accepts unconditionally. -/
def verify_card_reveal_proof (proof : List Nat) (public_inputs : List Nat)
    (deck_commitment : Nat) : Bool :=
  true

/-- The GAME LOGIC section of flip_card: first flip stores the pending pair,
second flip resolves it (match: mark both positions, bump pairs_found and the
current player's score, keep the turn; otherwise: pass the turn), clearing the
pending pair in both branches. The unwrap of flip_one_value is modelled by
getD 0; in every state the contract ever stores, flip_one and flip_one_value
are some or none together, so the default is never consulted. -/
def apply_flip_logic (game : GameState) (position revealed_value : Nat) : GameState :=
  match game.flip_one with
  | none =>
      { game with flip_one := some position, flip_one_value := some revealed_value }
  | some pos_a =>
      let val_a := game.flip_one_value.getD 0
      let updated :=
        if val_a = revealed_value ∧ pos_a ≠ position then
          if game.current_turn = game.player1 then
            { game with
                cards := (game.cards.set pos_a CardState.Matched).set position CardState.Matched,
                pairs_found := game.pairs_found + 1,
                score1 := game.score1 + 1 }
          else
            { game with
                cards := (game.cards.set pos_a CardState.Matched).set position CardState.Matched,
                pairs_found := game.pairs_found + 1,
                score2 := game.score2 + 1 }
        else
          { game with current_turn :=
              if game.current_turn = game.player1 then game.player2 else game.player1 }
      { updated with flip_one := none, flip_one_value := none }

/-- The game-over check at the end of flip_card: when all 8 pairs are found
the session is deactivated and the Game Hub is notified with
player1_won given by score1 greater than score2. -/
def finish_flip (g1 : GameState) : FlipResult :=
  if g1.pairs_found = 8 then
    { game := { g1 with is_active := false },
      end_game_call := some (decide (g1.score1 > g1.score2)) }
  else
    { game := g1, end_game_call := none }

/-- flip_card, generic in the verifier the contract consults: the guard
sequence of the source in order (active session, caller's turn, position in
range, card not already matched, proof verification), then the game logic and
the completion check. The contract's own instantiation is flip_card below. -/
def flip_card_with (V : List Nat → List Nat → Nat → Bool)
    (game : GameState) (caller position revealed_value : Nat)
    (proof public_inputs : List Nat) : Except Error FlipResult :=
  if game.is_active = false then
    Except.error Error.GameNotActive
  else if caller ≠ game.current_turn then
    Except.error Error.NotYourTurn
  else if 16 ≤ position then
    Except.error Error.InvalidPosition
  else if game.cards.getD position CardState.FaceDown = CardState.Matched then
    Except.error Error.CardAlreadyMatched
  else if V proof public_inputs game.deck_commitment = false then
    Except.error Error.InvalidProof
  else
    Except.ok (finish_flip (apply_flip_logic game position revealed_value))

/-- flip_card as deployed: the guards and game logic gated by the
verify_card_reveal_proof stub, invoked with the session's stored
deck_commitment. -/
def flip_card (game : GameState) (caller position revealed_value : Nat)
    (proof public_inputs : List Nat) : Except Error FlipResult :=
  flip_card_with verify_card_reveal_proof game caller position revealed_value proof public_inputs

/-- start_game: both players' authorization is checked externally; the function
then unconditionally builds the initial session state (16 face-down cards,
zero scores, player1 to move, no pending flip, active) and stores it. The
point stakes are forwarded to the Game Hub and are not part of the stored
GameState. -/
def start_game (session_id player1 player2 : Nat)
    (player1_points player2_points : Int) (deck_commitment : Nat) : GameState :=
  { session_id := session_id
    player1 := player1
    player2 := player2
    deck_commitment := deck_commitment
    cards := List.replicate 16 CardState.FaceDown
    score1 := 0
    score2 := 0
    current_turn := player1
    flip_one := none
    flip_one_value := none
    pairs_found := 0
    is_active := true }

/-- The keyed session store of the authority. -/
def GameStore := Nat → Option GameState

/-- Transaction-level semantics of a flip_card call: a panic (modelled as an
error result) aborts the transaction, so the store is returned unchanged; only
an accepted flip writes the new state back under its session id. -/
def flip_card_tx (V : List Nat → List Nat → Nat → Bool) (store : GameStore)
    (session_id caller position revealed_value : Nat)
    (proof public_inputs : List Nat) : GameStore × Option Error :=
  match store session_id with
  | none => (store, some Error.GameNotFound)
  | some game =>
      match flip_card_with V game caller position revealed_value proof public_inputs with
      | Except.error e => (store, some e)
      | Except.ok r => (fun sid => if sid = session_id then some r.game else store sid, none)

/-- States reachable from session creation by any sequence of accepted flip
operations of the deployed contract. -/
inductive Reachable : GameState → Prop
  | start (session_id player1 player2 : Nat) (p1_points p2_points : Int)
      (deck_commitment : Nat) :
      Reachable (start_game session_id player1 player2 p1_points p2_points deck_commitment)
  | flip (g : GameState) (caller position revealed_value : Nat)
      (proof public_inputs : List Nat) (r : FlipResult) :
      Reachable g →
      flip_card g caller position revealed_value proof public_inputs = Except.ok r →
      Reachable r.game

/-- The FlipResult of a flip_card call, with the unchanged state as the
(never consulted in our uses) fallback on rejection. -/
def flipOutcomeOf (g : GameState) (caller position revealed_value : Nat)
    (proof public_inputs : List Nat) : FlipResult :=
  match flip_card g caller position revealed_value proof public_inputs with
  | Except.ok r => r
  | Except.error _ => { game := g, end_game_call := none }

/-- The state after a flip_card call (unchanged on rejection). -/
def applyFlip (g : GameState) (caller position revealed_value : Nat)
    (proof public_inputs : List Nat) : GameState :=
  (flipOutcomeOf g caller position revealed_value proof public_inputs).game

/- Section: Client-side commitment pipeline

deckUtils.ts generateCommitment hashes the UTF-8 bytes of the JSON rendering
of the object holding the deck and the salt with SHA-256 (the Web Crypto
digest) and returns the lowercase hex string; the contract receives the digest
bytes via hexToBuffer. SHA-256 is specified by FIPS 180-4; it is embedded here
over Nat with explicit reduction modulo 2^32. -/

/-- Reduce a word modulo 2^32. -/
def w32 (x : Nat) : Nat := x % 4294967296

/-- Right rotation of a 32-bit word (the two disjoint bit ranges are
recombined by addition). -/
def rotr32 (x n : Nat) : Nat := w32 (x / 2 ^ n + x % 2 ^ n * 2 ^ (32 - n))

/-- SHA-256 choice function; 32-bit complement is xor with 2^32 - 1. -/
def sha_ch (x y z : Nat) : Nat := (x &&& y) ^^^ ((x ^^^ 4294967295) &&& z)

/-- SHA-256 majority function. -/
def sha_maj (x y z : Nat) : Nat := (x &&& y) ^^^ (x &&& z) ^^^ (y &&& z)

/-- SHA-256 big sigma 0. -/
def sha_bsig0 (x : Nat) : Nat := rotr32 x 2 ^^^ rotr32 x 13 ^^^ rotr32 x 22

/-- SHA-256 big sigma 1. -/
def sha_bsig1 (x : Nat) : Nat := rotr32 x 6 ^^^ rotr32 x 11 ^^^ rotr32 x 25

/-- SHA-256 small sigma 0. -/
def sha_ssig0 (x : Nat) : Nat := rotr32 x 7 ^^^ rotr32 x 18 ^^^ (x / 2 ^ 3)

/-- SHA-256 small sigma 1. -/
def sha_ssig1 (x : Nat) : Nat := rotr32 x 17 ^^^ rotr32 x 19 ^^^ (x / 2 ^ 10)

/-- The 64 SHA-256 round constants of FIPS 180-4, in decimal. -/
def sha256K : List Nat :=
  [1116352408, 1899447441, 3049323471, 3921009573, 961987163,
   1508970993, 2453635748, 2870763221, 3624381080, 310598401,
   607225278, 1426881987, 1925078388, 2162078206, 2614888103,
   3248222580, 3835390401, 4022224774, 264347078, 604807628,
   770255983, 1249150122, 1555081692, 1996064986, 2554220882,
   2821834349, 2952996808, 3210313671, 3336571891, 3584528711,
   113926993, 338241895, 666307205, 773529912, 1294757372,
   1396182291, 1695183700, 1986661051, 2177026350, 2456956037,
   2730485921, 2820302411, 3259730800, 3345764771, 3516065817,
   3600352804, 4094571909, 275423344, 430227734, 506948616,
   659060556, 883997877, 958139571, 1322822218, 1537002063,
   1747873779, 1955562222, 2024104815, 2227730452, 2361852424,
   2428436474, 2756734187, 3204031479, 3329325298]

/-- The eight SHA-256 initial hash values of FIPS 180-4, in decimal. -/
def sha256H0 : List Nat :=
  [1779033703, 3144134277, 1013904242, 2773480762, 1359893119,
   2600822924, 528734635, 1541459225]

/-- Big-endian serialization of a number into the given count of bytes. -/
def beBytes : Nat → Nat → List Nat
  | 0, _ => []
  | k + 1, x => beBytes k (x / 256) ++ [x % 256]

/-- Big-endian value of a byte string. -/
def beNat (bs : List Nat) : Nat := bs.foldl (fun acc b => acc * 256 + b) 0

/-- Group bytes into big-endian 32-bit words. -/
def toWords : List Nat → List Nat
  | b0 :: b1 :: b2 :: b3 :: rest => (((b0 * 256 + b1) * 256 + b2) * 256 + b3) :: toWords rest
  | _ => []

/-- One step of the SHA-256 message schedule; the accumulator holds the
already scheduled words, most recent first. -/
def scheduleStep (acc : List Nat) : Nat :=
  w32 (sha_ssig1 (acc.getD 1 0) + acc.getD 6 0 + sha_ssig0 (acc.getD 14 0) + acc.getD 15 0)

/-- Extend the 16 block words by the given number of scheduled words and
return the schedule in order. -/
def buildSchedule : Nat → List Nat → List Nat
  | 0, acc => acc.reverse
  | n + 1, acc => buildSchedule n (scheduleStep acc :: acc)

/-- One SHA-256 compression round on the eight-word state. -/
def compressStep (kw : Nat × Nat) (st : List Nat) : List Nat :=
  match st with
  | [a, b, c, d, e, f, g, h] =>
      let t1 := w32 (h + sha_bsig1 e + sha_ch e f g + kw.1 + kw.2)
      let t2 := w32 (sha_bsig0 a + sha_maj a b c)
      [w32 (t1 + t2), a, b, c, w32 (d + t1), e, f, g]
  | other => other

/-- Process one 64-byte block: 64 rounds, then wrapping addition into the
incoming state. -/
def compressBlock (st : List Nat) (block : List Nat) : List Nat :=
  let ws := buildSchedule 48 (toWords block).reverse
  let mixed := (sha256K.zip ws).foldl (fun s kw => compressStep kw s) st
  List.zipWith (fun x y => w32 (x + y)) st mixed

/-- Fold the given number of 64-byte blocks of the message into the state. -/
def processBlocks : Nat → List Nat → List Nat → List Nat
  | 0, st, _ => st
  | n + 1, st, msg => processBlocks n (compressBlock st (msg.take 64)) (msg.drop 64)

/-- SHA-256 padding: a 0x80 byte, zeros to 56 mod 64, and the 64-bit
big-endian bit length. -/
def sha256Pad (msg : List Nat) : List Nat :=
  msg ++ [128] ++ List.replicate ((119 - msg.length % 64) % 64) 0 ++ beBytes 8 (msg.length * 8)

/-- SHA-256 of a byte string, as its 32 digest bytes. -/
def sha256 (msg : List Nat) : List Nat :=
  ((processBlocks ((sha256Pad msg).length / 64) sha256H0 (sha256Pad msg)).map (beBytes 4)).flatten

/-- UTF-8 bytes of a string; all strings fed to the pipeline here are ASCII,
for which the encoding is the character codes. -/
def asciiBytes (s : String) : List Nat := s.data.map Char.toNat

/-- Decimal rendering of a number, as byte values (JSON number rendering of
the card values). -/
def renderNat (n : Nat) : List Nat := asciiBytes (Nat.repr n)

/-- The UTF-8 bytes of the JSON text built by generateCommitment in
deckUtils.ts: the serialization of the object holding deck and salt, in
insertion order and without whitespace; 44 is the comma. -/
def jsonDeckSalt (deck : List Nat) (salt : String) : List Nat :=
  asciiBytes "\x7b\"deck\":[" ++ List.intercalate [44] (deck.map renderNat)
    ++ asciiBytes "],\"salt\":\"" ++ asciiBytes salt ++ asciiBytes "\"\x7d"

/-- generateCommitment of deckUtils.ts: SHA-256 over the JSON text of deck and
salt. The function returns the digest as lowercase hex; the on-chain
commitment bytes obtained from it via hexToBuffer are exactly these digest
bytes, so the digest byte string is used as the commitment value here. -/
def generateCommitment (deck : List Nat) (salt : String) : List Nat :=
  sha256 (jsonDeckSalt deck salt)

/-- Lowercase hex digit of a value below 16, as a byte (toString(16) with
padStart). -/
def hexDigit (n : Nat) : Nat := if n < 10 then 48 + n else 87 + n

/-- Lowercase hex rendering of a byte string, as byte values. -/
def bytesToHex (bs : List Nat) : List Nat :=
  (bs.map (fun b => [hexDigit (b / 16), hexDigit (b % 16)])).flatten

/-- The salt preparation of noirProofGen.ts: the salt string is hashed with
SHA-256 and the first 31 bytes are taken as the field element fed to the
circuit. -/
def saltToField (salt : String) : Nat := beNat ((sha256 (asciiBytes salt)).take 31)

/-- The modulus of the BN254 scalar field, the field of Noir circuit values
under the Barretenberg backend. -/
def bn254ScalarModulus : Nat :=
  21888242871839275222246405745257275088548364400416034343698204186575808495617

/-- Modelled from the spec: the commitment function inside the
proof-generation backend's circuit. computePedersenCommitment of
noirProofGen.ts obtains it by executing the card_reveal circuit, whose source
(circuits/card_reveal) is not included under src; the spec treats the circuit
internals as an opaque external capability, so the Pedersen hash is modelled
as an arbitrary function of the deck and the salt field element whose output
is an element of the BN254 scalar field — the one property every value
produced by the circuit has. -/
structure PedersenCommitmentFn where
  commit : List Nat → Nat → Nat
  commit_lt : ∀ deck saltField, commit deck saltField < bn254ScalarModulus

/-- A concrete inhabitant of the modelled circuit-commitment interface, used
to instantiate universally quantified statements about it. -/
def trivialPedersenFn : PedersenCommitmentFn :=
  { commit := fun _ _ => 0
    commit_lt := fun _ _ => by
      show (0 : Nat) < bn254ScalarModulus
      decide }

/-- The deck data exported for transmission to player 2 by handleCreateGame of
ZkMemoryGame.tsx: the JSON serialization of the object holding deck, salt and
commitment (the commitment as its 64 lowercase hex characters), in cleartext. -/
def deckDataJson (deck : List Nat) (salt : String) (commitmentHex : List Nat) : List Nat :=
  asciiBytes "\x7b\"deck\":[" ++ List.intercalate [44] (deck.map renderNat)
    ++ asciiBytes "],\"salt\":\"" ++ asciiBytes salt
    ++ asciiBytes "\",\"commitment\":\"" ++ commitmentHex ++ asciiBytes "\"\x7d"

/-- The deck-data payload produced by a run of handleCreateGame from a given
deck and salt. -/
def exportedDeckData (deck : List Nat) (salt : String) : List Nat :=
  deckDataJson deck salt (bytesToHex (generateCommitment deck salt))

/-- Two payloads differ only in their commitment when they decompose over a
common template: a shared prefix, the run's own commitment hex, a shared
suffix. -/
def RunsDifferOnlyInCommitment (p1 p2 h1 h2 : List Nat) : Prop :=
  ∃ pre post : List Nat, p1 = pre ++ h1 ++ post ∧ p2 = pre ++ h2 ++ post

/- Section: Client flip-submission retry loop

handleFlipCard of ZkMemoryGame.tsx submits the flip inside a loop with
retries = 3; a TRY_AGAIN_LATER or txBadSeq failure with retries remaining
decrements the budget and waits 1000 * (4 - retries) milliseconds before the
next attempt; a NotYourTurn contract rejection refreshes the game state and
throws a "try again" message without resubmitting; every other failure is
rethrown. The loop is embedded as a function of the environment, the outcome
of each attempt by index. -/

/-- The possible outcomes of one flip submission attempt as the catch block
distinguishes them. -/
inductive AttemptResult
  | success
  | tryAgainLater
  | txBadSeq
  | notYourTurn
  | otherFailure
deriving DecidableEq, Repr

/-- The final outcome of the loop: the flip went through, the local state was
stale (refresh plus a non-fatal try-again message), or a failure was
surfaced. -/
inductive FlipOutcome
  | flipped
  | staleStateRetry
  | failed (e : AttemptResult)
deriving DecidableEq, Repr

/-- Observable trace of one run of the loop: attempts made, waits between
attempts (ms), whether the authoritative state was re-fetched on the stale
path, and the outcome. -/
structure RetryTrace where
  attempts : Nat
  delays : List Nat
  refreshedState : Bool
  outcome : FlipOutcome
deriving DecidableEq, Repr

/-- The errors the loop treats as transient: TRY_AGAIN_LATER and txBadSeq. -/
def isTransient : AttemptResult → Bool
  | AttemptResult.tryAgainLater => true
  | AttemptResult.txBadSeq => true
  | _ => false

/-- The while loop of handleFlipCard: the second argument is the attempt
index, the third the remaining retries (the loop is entered with 3; the
fuel-0 case is unreachable from there, since a transient failure retries only
when more than one attempt remains). -/
def runFlipAttempts (env : Nat → AttemptResult) : Nat → Nat → RetryTrace
  | _, 0 => ⟨0, [], false, FlipOutcome.failed AttemptResult.otherFailure⟩
  | k, r + 1 =>
      match env k with
      | AttemptResult.success => ⟨1, [], false, FlipOutcome.flipped⟩
      | AttemptResult.notYourTurn => ⟨1, [], true, FlipOutcome.staleStateRetry⟩
      | AttemptResult.otherFailure =>
          ⟨1, [], false, FlipOutcome.failed AttemptResult.otherFailure⟩
      | AttemptResult.tryAgainLater =>
          if 0 < r then
            let rest := runFlipAttempts env (k + 1) r
            ⟨rest.attempts + 1, 1000 * (4 - r) :: rest.delays, rest.refreshedState, rest.outcome⟩
          else ⟨1, [], false, FlipOutcome.failed AttemptResult.tryAgainLater⟩
      | AttemptResult.txBadSeq =>
          if 0 < r then
            let rest := runFlipAttempts env (k + 1) r
            ⟨rest.attempts + 1, 1000 * (4 - r) :: rest.delays, rest.refreshedState, rest.outcome⟩
          else ⟨1, [], false, FlipOutcome.failed AttemptResult.txBadSeq⟩

/-- handleFlipCard's loop entered with its fixed budget of 3 attempts. -/
def handleFlipCardRetries (env : Nat → AttemptResult) : RetryTrace :=
  runFlipAttempts env 0 3

/- Section: Concrete sessions and traces used as witnesses and counterexamples -/

/-- A deck the dealer's shuffle can produce: the two pairs 0 and 1 over four
cards. -/
def c7Deck : List Nat := [0, 1, 0, 1]

/-- Another order of the same deck. -/
def c9Deck2 : List Nat := [1, 0, 1, 0]

/-- A salt in the shape crypto.randomUUID produces. -/
def c7Salt : String := "11111111-2222-4333-8444-555555555555"

/-- An environment in which every submission attempt fails transiently. -/
def envAllTransient : Nat → AttemptResult := fun _ => AttemptResult.tryAgainLater

/-- A fresh session: players 10 and 20, commitment 5. -/
def demo_start : GameState := start_game 1 10 20 0 0 5

/-- demo_start after player1 flips position 0 claiming value 0 (first flip of
the turn). -/
def demo_pending : GameState := applyFlip demo_start 10 0 0 [] []

/-- demo_pending after player1 flips position 1 claiming value 0: a matching
second flip. -/
def demo_matched : GameState := applyFlip demo_pending 10 1 0 [] []

/-- A session whose stored commitment is 5, used to exercise the verifier with
public inputs carrying a different commitment. -/
def c1_session : GameState := start_game 2 10 20 0 0 5

/-- A terminal session under id 3. -/
def c4Game : GameState := { demo_start with session_id := 3, is_active := false }

/-- A store holding only the terminal session under id 3. -/
def c4Store : GameStore := fun sid => if sid = 3 then some c4Game else none

/-- A session one matching flip away from completion. -/
def c5Game : GameState :=
  { demo_start with
      session_id := 9
      score1 := 4
      score2 := 3
      flip_one := some 0
      flip_one_value := some 1
      pairs_found := 7 }

/-- A session whose two players are the same address 7. -/
def self_play_session : GameState := start_game 6 7 7 0 0 99

/- Section: Helper lemmas on the contract embedding -/

theorem reachable_applyFlip (g : GameState) (caller position revealed_value : Nat)
    (proof public_inputs : List Nat) (h : Reachable g) :
    Reachable (applyFlip g caller position revealed_value proof public_inputs) := by
  unfold applyFlip flipOutcomeOf
  cases hf : flip_card g caller position revealed_value proof public_inputs with
  | error e => exact h
  | ok r => exact Reachable.flip g caller position revealed_value proof public_inputs r h hf

/-- Inversion of an accepted flip: all five guards passed and the result is
the completion check applied to the game-logic step. -/
theorem flip_ok_elim {V : List Nat → List Nat → Nat → Bool} {g : GameState}
    {caller position revealed_value : Nat} {proof public_inputs : List Nat}
    {r : FlipResult}
    (h : flip_card_with V g caller position revealed_value proof public_inputs = Except.ok r) :
    g.is_active = true ∧ caller = g.current_turn ∧ position < 16
    ∧ g.cards.getD position CardState.FaceDown ≠ CardState.Matched
    ∧ V proof public_inputs g.deck_commitment = true
    ∧ r = finish_flip (apply_flip_logic g position revealed_value) := by
  unfold flip_card_with at h
  by_cases h1 : g.is_active = false
  · rw [if_pos h1] at h
    exact Except.noConfusion h
  · rw [if_neg h1] at h
    by_cases h2 : caller ≠ g.current_turn
    · rw [if_pos h2] at h
      exact Except.noConfusion h
    · rw [if_neg h2] at h
      by_cases h3 : 16 ≤ position
      · rw [if_pos h3] at h
        exact Except.noConfusion h
      · rw [if_neg h3] at h
        by_cases h4 : g.cards.getD position CardState.FaceDown = CardState.Matched
        · rw [if_pos h4] at h
          exact Except.noConfusion h
        · rw [if_neg h4] at h
          by_cases h5 : V proof public_inputs g.deck_commitment = false
          · rw [if_pos h5] at h
            exact Except.noConfusion h
          · rw [if_neg h5] at h
            refine ⟨?_, not_not.mp h2, not_le.mp h3, h4, ?_, (Except.ok.inj h).symm⟩
            · revert h1
              cases g.is_active <;> simp
            · revert h5
              cases V proof public_inputs g.deck_commitment <;> simp

/-- The completion check touches only is_active (and reports the hub call);
every other field of the state is handed through. -/
theorem finish_flip_fields (g1 : GameState) :
    (finish_flip g1).game.score1 = g1.score1
    ∧ (finish_flip g1).game.score2 = g1.score2
    ∧ (finish_flip g1).game.pairs_found = g1.pairs_found
    ∧ (finish_flip g1).game.cards = g1.cards
    ∧ (finish_flip g1).game.current_turn = g1.current_turn
    ∧ (finish_flip g1).game.flip_one = g1.flip_one
    ∧ (finish_flip g1).game.flip_one_value = g1.flip_one_value
    ∧ (finish_flip g1).game.player1 = g1.player1
    ∧ (finish_flip g1).game.player2 = g1.player2 := by
  unfold finish_flip
  split <;> simp

theorem finish_flip_is_active (g1 : GameState) (h : g1.is_active = true) :
    ((finish_flip g1).game.is_active = false ↔ g1.pairs_found = 8) := by
  unfold finish_flip
  split
  · simpa
  · simp [h]
    assumption

theorem finish_flip_end_call (g1 : GameState) :
    (finish_flip g1).end_game_call =
      if g1.pairs_found = 8 then some (decide (g1.score1 > g1.score2)) else none := by
  unfold finish_flip
  split <;> simp_all

/-- The game-logic step on a first flip (no pending pair). -/
theorem apply_flip_logic_first (g : GameState) (position revealed_value : Nat)
    (h : g.flip_one = none) :
    apply_flip_logic g position revealed_value =
      { g with flip_one := some position, flip_one_value := some revealed_value } := by
  unfold apply_flip_logic
  rw [h]

/-- The game-logic step on a second flip, matching case. -/
theorem apply_flip_logic_match (g : GameState) (position revealed_value pos_a val_a : Nat)
    (h : g.flip_one = some pos_a) (hv : g.flip_one_value = some val_a)
    (hmatch : val_a = revealed_value ∧ pos_a ≠ position) :
    apply_flip_logic g position revealed_value =
      (if g.current_turn = g.player1 then
        { g with
            cards := (g.cards.set pos_a CardState.Matched).set position CardState.Matched,
            pairs_found := g.pairs_found + 1,
            score1 := g.score1 + 1,
            flip_one := none, flip_one_value := none }
      else
        { g with
            cards := (g.cards.set pos_a CardState.Matched).set position CardState.Matched,
            pairs_found := g.pairs_found + 1,
            score2 := g.score2 + 1,
            flip_one := none, flip_one_value := none }) := by
  unfold apply_flip_logic
  rw [h]
  simp only [hv, Option.getD_some]
  rw [if_pos hmatch]
  split <;> rfl

/-- The game-logic step on a second flip, non-matching case. -/
theorem apply_flip_logic_nomatch (g : GameState) (position revealed_value pos_a val_a : Nat)
    (h : g.flip_one = some pos_a) (hv : g.flip_one_value = some val_a)
    (hmatch : ¬ (val_a = revealed_value ∧ pos_a ≠ position)) :
    apply_flip_logic g position revealed_value =
      { g with
          current_turn := if g.current_turn = g.player1 then g.player2 else g.player1,
          flip_one := none, flip_one_value := none } := by
  unfold apply_flip_logic
  rw [h]
  simp only [hv, Option.getD_some]
  rw [if_neg hmatch]

/-- The game-logic step never touches the activity flag. -/
theorem apply_flip_logic_is_active (g : GameState) (position revealed_value : Nat) :
    (apply_flip_logic g position revealed_value).is_active = g.is_active := by
  unfold apply_flip_logic
  cases g.flip_one with
  | none => rfl
  | some pos_a =>
      dsimp only
      split
      · split <;> rfl
      · rfl

/-- A second flip clears the pending pair regardless of the match outcome. -/
theorem apply_flip_logic_second_clears (g : GameState) (position revealed_value pos_a : Nat)
    (h : g.flip_one = some pos_a) :
    (apply_flip_logic g position revealed_value).flip_one = none
    ∧ (apply_flip_logic g position revealed_value).flip_one_value = none := by
  unfold apply_flip_logic
  rw [h]
  exact ⟨rfl, rfl⟩

/-- Second-flip accounting, valid independently of the pending value: either a
match happened (score sum and pairs_found both rise by one) or nothing moved. -/
theorem apply_flip_logic_second_counts (g : GameState) (position revealed_value pos_a : Nat)
    (h : g.flip_one = some pos_a) :
    ((apply_flip_logic g position revealed_value).score1
        + (apply_flip_logic g position revealed_value).score2 = g.score1 + g.score2 + 1
      ∧ (apply_flip_logic g position revealed_value).pairs_found = g.pairs_found + 1)
    ∨ ((apply_flip_logic g position revealed_value).score1 = g.score1
      ∧ (apply_flip_logic g position revealed_value).score2 = g.score2
      ∧ (apply_flip_logic g position revealed_value).pairs_found = g.pairs_found) := by
  unfold apply_flip_logic
  rw [h]
  dsimp only
  split
  · left
    split <;> dsimp only <;> omega
  · right
    exact ⟨rfl, rfl, rfl⟩

/-- Error characterization of the guard sequence of flip_card, ordered the way
the source checks them. -/
theorem flip_error_iff (V : List Nat → List Nat → Nat → Bool) (g : GameState)
    (caller position revealed_value : Nat) (proof public_inputs : List Nat) :
    (flip_card_with V g caller position revealed_value proof public_inputs
        = Except.error Error.GameNotActive ↔ g.is_active = false)
    ∧ (g.is_active = true →
        (flip_card_with V g caller position revealed_value proof public_inputs
          = Except.error Error.NotYourTurn ↔ caller ≠ g.current_turn))
    ∧ (g.is_active = true → caller = g.current_turn →
        (flip_card_with V g caller position revealed_value proof public_inputs
          = Except.error Error.InvalidPosition ↔ 16 ≤ position))
    ∧ (g.is_active = true → caller = g.current_turn → position < 16 →
        (flip_card_with V g caller position revealed_value proof public_inputs
          = Except.error Error.CardAlreadyMatched
          ↔ g.cards.getD position CardState.FaceDown = CardState.Matched))
    ∧ (g.is_active = true → caller = g.current_turn → position < 16 →
        g.cards.getD position CardState.FaceDown ≠ CardState.Matched →
        (flip_card_with V g caller position revealed_value proof public_inputs
          = Except.error Error.InvalidProof
          ↔ V proof public_inputs g.deck_commitment = false)) := by
  unfold flip_card_with
  by_cases h1 : g.is_active = false
  · simp only [if_pos h1]
    refine ⟨by simp [h1], ?_, ?_, ?_, ?_⟩ <;> intro ha <;> simp_all
  · simp only [if_neg h1]
    by_cases h2 : caller ≠ g.current_turn
    · simp only [if_pos h2]
      refine ⟨by simp [h1, h2], ?_, ?_, ?_, ?_⟩
      · intro _
        simp [h2]
      · intro _ hc
        exact absurd hc h2
      · intro _ hc
        exact absurd hc h2
      · intro _ hc
        exact absurd hc h2
    · simp only [if_neg h2]
      by_cases h3 : 16 ≤ position
      · simp only [if_pos h3]
        refine ⟨by simp [h1], ?_, ?_, ?_, ?_⟩ <;> intro _ <;> simp_all
      · simp only [if_neg h3]
        by_cases h4 : g.cards.getD position CardState.FaceDown = CardState.Matched
        · simp only [if_pos h4]
          refine ⟨by simp [h1], ?_, ?_, ?_, ?_⟩ <;> intro _ <;> simp_all
        · simp only [if_neg h4]
          by_cases h5 : V proof public_inputs g.deck_commitment = false
          · simp only [if_pos h5]
            refine ⟨by simp [h1], ?_, ?_, ?_, ?_⟩ <;> intro _ <;> simp_all
          · simp only [if_neg h5]
            refine ⟨by simp [h1], ?_, ?_, ?_, ?_⟩ <;> intro _ <;> simp_all

/- Section: Claim C1 -/

/-- Claim C1 counterexample: the deployed verifier is the accept-all stub, so a
flip whose public inputs carry commitment 999 is accepted against a session
whose stored commitment is 5 — the verifier does not accept only on matching
commitments, and a proof built against another session's commitment is not
rejected. (The public-input layout is [position, deck_commitment,
revealed_value].) -/
theorem C1_counterexample :
    verify_card_reveal_proof (List.replicate 256 0) [0, 999, 1] c1_session.deck_commitment = true
    ∧ c1_session.deck_commitment = 5
    ∧ (999 : Nat) ≠ 5
    ∧ (applyFlip c1_session 10 0 1 (List.replicate 256 0) [0, 999, 1]).flip_one = some 0 :=
  ⟨rfl, rfl, by decide, by decide⟩

/-- Claim C1 (amended): flip_card invokes the verifier with the session's
stored commitment, and in the development configuration the accept-all stub
returns Accept for every (proof, publicInputs, commitment) triple — including
triples whose public inputs carry a different commitment — so flip_card never
rejects a flip with InvalidProof. -/
theorem C1_stub_accepts_every_triple (proof public_inputs : List Nat) (deck_commitment : Nat)
    (g : GameState) (caller position revealed_value : Nat) (pr2 pi2 : List Nat) :
    verify_card_reveal_proof proof public_inputs deck_commitment = true
    ∧ flip_card g caller position revealed_value pr2 pi2 ≠ Except.error Error.InvalidProof := by
  refine ⟨rfl, ?_⟩
  intro h
  unfold flip_card flip_card_with verify_card_reveal_proof at h
  repeat' split at h
  all_goals simp_all

/- Section: Claim C2 -/

/-- Claim C2 counterexample: after one accepted matching pair, the reachable
state demo_matched has score1 + score2 = 1 but 2 * pairs_found = 2; the code
raises the scoring player's score by one (not two) per pair found, so the
claimed equation fails on reachable states. -/
theorem C2_counterexample :
    Reachable demo_matched
    ∧ demo_matched.score1 + demo_matched.score2 ≠ 2 * demo_matched.pairs_found := by
  constructor
  · exact reachable_applyFlip _ 10 1 0 [] []
      (reachable_applyFlip _ 10 0 0 [] [] (Reachable.start 1 10 20 0 0 5))
  · decide

/-- Claim C2 (amended): in every state reachable from session creation by
accepted flips, score1 + score2 = pairs_found (each found pair awards exactly
one point to the scoring player). -/
theorem C2_score_pairs_invariant (g : GameState) (h : Reachable g) :
    g.score1 + g.score2 = g.pairs_found := by
  induction h with
  | start sid p1 p2 a b c => rfl
  | flip g caller position revealed_value proof public_inputs r hg hok ih =>
      obtain ⟨-, -, -, -, -, hr⟩ := flip_ok_elim hok
      subst hr
      obtain ⟨hs1, hs2, hp, -⟩ := finish_flip_fields (apply_flip_logic g position revealed_value)
      rw [hs1, hs2, hp]
      cases hfo : g.flip_one with
      | none =>
          rw [apply_flip_logic_first g position revealed_value hfo]
          exact ih
      | some pos_a =>
          rcases apply_flip_logic_second_counts g position revealed_value pos_a hfo with
            ⟨ha, hb⟩ | ⟨ha, hb, hc⟩
          · omega
          · omega

/-- Claim C2 witness: the invariant instantiated at a concrete reachable
state. -/
theorem C2_witness :
    demo_matched.score1 + demo_matched.score2 = demo_matched.pairs_found :=
  C2_score_pairs_invariant demo_matched
    (reachable_applyFlip _ 10 1 0 [] []
      (reachable_applyFlip _ 10 0 0 [] [] (Reachable.start 1 10 20 0 0 5)))

/- Section: Claim C3 -/

/-- Claim C3: an accepted second flip (one processed while a pending pair
(pos_a, val_a) exists) marks both positions Matched, increments pairs_found
and the current player's score and keeps the turn when val_a equals the
submitted value at a different position; otherwise it leaves cards and scores
unchanged and passes the turn; in both cases the pending pair is cleared. -/
theorem C3_second_flip (g : GameState) (caller position revealed_value pos_a val_a : Nat)
    (proof public_inputs : List Nat) (r : FlipResult)
    (hok : flip_card g caller position revealed_value proof public_inputs = Except.ok r)
    (hpend : g.flip_one = some pos_a) (hpendv : g.flip_one_value = some val_a) :
    (val_a = revealed_value ∧ pos_a ≠ position →
        r.game.cards = (g.cards.set pos_a CardState.Matched).set position CardState.Matched
        ∧ r.game.pairs_found = g.pairs_found + 1
        ∧ (g.current_turn = g.player1 → r.game.score1 = g.score1 + 1 ∧ r.game.score2 = g.score2)
        ∧ (g.current_turn ≠ g.player1 → r.game.score2 = g.score2 + 1 ∧ r.game.score1 = g.score1)
        ∧ r.game.current_turn = g.current_turn)
    ∧ (¬ (val_a = revealed_value ∧ pos_a ≠ position) →
        r.game.cards = g.cards ∧ r.game.score1 = g.score1 ∧ r.game.score2 = g.score2
        ∧ r.game.pairs_found = g.pairs_found
        ∧ r.game.current_turn = (if g.current_turn = g.player1 then g.player2 else g.player1))
    ∧ r.game.flip_one = none ∧ r.game.flip_one_value = none := by
  obtain ⟨-, -, -, -, -, hr⟩ := flip_ok_elim hok
  subst hr
  obtain ⟨hs1, hs2, hp, hc, ht, hf1, hf2, -⟩ :=
    finish_flip_fields (apply_flip_logic g position revealed_value)
  refine ⟨?_, ?_, ?_, ?_⟩
  · intro hm
    rw [hs1, hs2, hp, hc, ht, apply_flip_logic_match g position revealed_value pos_a val_a
      hpend hpendv hm]
    by_cases hturn : g.current_turn = g.player1
    · rw [if_pos hturn]
      exact ⟨rfl, rfl, fun _ => ⟨rfl, rfl⟩, fun hcon => absurd hturn hcon, rfl⟩
    · rw [if_neg hturn]
      exact ⟨rfl, rfl, fun hcon => absurd hcon hturn, fun _ => ⟨rfl, rfl⟩, rfl⟩
  · intro hm
    rw [hs1, hs2, hp, hc, ht, apply_flip_logic_nomatch g position revealed_value pos_a val_a
      hpend hpendv hm]
    exact ⟨rfl, rfl, rfl, rfl, rfl⟩
  · rw [hf1]
    exact (apply_flip_logic_second_clears g position revealed_value pos_a hpend).1
  · rw [hf2]
    exact (apply_flip_logic_second_clears g position revealed_value pos_a hpend).2

/-- Claim C3 witness: the matching second flip of the demo trace, with every
hypothesis discharged at concrete inputs. -/
theorem C3_witness :
    demo_pending.flip_one = some 0
    ∧ (flipOutcomeOf demo_pending 10 1 0 [] []).game.flip_one = none
    ∧ (flipOutcomeOf demo_pending 10 1 0 [] []).game.pairs_found = demo_pending.pairs_found + 1 := by
  have h := C3_second_flip demo_pending 10 1 0 0 0 [] []
    (flipOutcomeOf demo_pending 10 1 0 [] []) rfl (by decide) (by decide)
  exact ⟨by decide, h.2.2.1, (h.1 (by decide)).2.1⟩

/- Section: Claim C4 -/

/-- Claim C4: flip_card rejects with the typed errors in the source's check
order — GameNotActive on a terminal session, NotYourTurn when the caller is
not current_turn, InvalidPosition outside [0, 16), CardAlreadyMatched on a
matched card, InvalidProof when the verifier rejects — and any rejection
leaves the session store completely unchanged (all checks run before any state
is written). -/
theorem C4_rejection_taxonomy (V : List Nat → List Nat → Nat → Bool)
    (store : GameStore) (session_id caller position revealed_value : Nat)
    (proof public_inputs : List Nat) (g : GameState)
    (hg : store session_id = some g) :
    (∀ e, (flip_card_tx V store session_id caller position revealed_value proof public_inputs).2
        = some e →
      (flip_card_tx V store session_id caller position revealed_value proof public_inputs).1
        = store)
    ∧ ((flip_card_tx V store session_id caller position revealed_value proof public_inputs).2
        = some Error.GameNotActive ↔ g.is_active = false)
    ∧ (g.is_active = true →
        ((flip_card_tx V store session_id caller position revealed_value proof public_inputs).2
          = some Error.NotYourTurn ↔ caller ≠ g.current_turn))
    ∧ (g.is_active = true → caller = g.current_turn →
        ((flip_card_tx V store session_id caller position revealed_value proof public_inputs).2
          = some Error.InvalidPosition ↔ 16 ≤ position))
    ∧ (g.is_active = true → caller = g.current_turn → position < 16 →
        ((flip_card_tx V store session_id caller position revealed_value proof public_inputs).2
          = some Error.CardAlreadyMatched
          ↔ g.cards.getD position CardState.FaceDown = CardState.Matched))
    ∧ (g.is_active = true → caller = g.current_turn → position < 16 →
        g.cards.getD position CardState.FaceDown ≠ CardState.Matched →
        ((flip_card_tx V store session_id caller position revealed_value proof public_inputs).2
          = some Error.InvalidProof
          ↔ V proof public_inputs g.deck_commitment = false)) := by
  obtain ⟨e1, e2, e3, e4, e5⟩ :=
    flip_error_iff V g caller position revealed_value proof public_inputs
  have htx : flip_card_tx V store session_id caller position revealed_value proof public_inputs
      = match flip_card_with V g caller position revealed_value proof public_inputs with
        | Except.error e => (store, some e)
        | Except.ok r =>
            (fun sid => if sid = session_id then some r.game else store sid, none) := by
    simp only [flip_card_tx, hg]
  cases hres : flip_card_with V g caller position revealed_value proof public_inputs with
  | error e0 =>
      rw [hres] at htx e1 e2 e3 e4 e5
      refine ⟨?_, ?_, ?_, ?_, ?_, ?_⟩
      · intro e he
        rw [htx]
      · rw [htx]
        rw [show ((store, some e0) : GameStore × Option Error).2 = some e0 from rfl,
          Option.some.injEq]
        rw [← e1]
        exact ⟨fun hh => by rw [hh], fun hh => Except.error.inj hh⟩
      · intro ha
        rw [htx]
        rw [show ((store, some e0) : GameStore × Option Error).2 = some e0 from rfl,
          Option.some.injEq]
        rw [← e2 ha]
        exact ⟨fun hh => by rw [hh], fun hh => Except.error.inj hh⟩
      · intro ha hb
        rw [htx]
        rw [show ((store, some e0) : GameStore × Option Error).2 = some e0 from rfl,
          Option.some.injEq]
        rw [← e3 ha hb]
        exact ⟨fun hh => by rw [hh], fun hh => Except.error.inj hh⟩
      · intro ha hb hc
        rw [htx]
        rw [show ((store, some e0) : GameStore × Option Error).2 = some e0 from rfl,
          Option.some.injEq]
        rw [← e4 ha hb hc]
        exact ⟨fun hh => by rw [hh], fun hh => Except.error.inj hh⟩
      · intro ha hb hc hd
        rw [htx]
        rw [show ((store, some e0) : GameStore × Option Error).2 = some e0 from rfl,
          Option.some.injEq]
        rw [← e5 ha hb hc hd]
        exact ⟨fun hh => by rw [hh], fun hh => Except.error.inj hh⟩
  | ok r =>
      rw [hres] at htx e1 e2 e3 e4 e5
      have hnone : (flip_card_tx V store session_id caller position revealed_value
          proof public_inputs).2 = none := by
        rw [htx]
      refine ⟨?_, ?_, ?_, ?_, ?_, ?_⟩
      · intro e he
        rw [hnone] at he
        exact Option.noConfusion he
      · rw [hnone]
        exact ⟨fun he => Option.noConfusion he,
          fun hc => Except.noConfusion (e1.mpr hc)⟩
      · intro ha
        rw [hnone]
        exact ⟨fun he => Option.noConfusion he,
          fun hc => Except.noConfusion ((e2 ha).mpr hc)⟩
      · intro ha hb
        rw [hnone]
        exact ⟨fun he => Option.noConfusion he,
          fun hc => Except.noConfusion ((e3 ha hb).mpr hc)⟩
      · intro ha hb hc
        rw [hnone]
        exact ⟨fun he => Option.noConfusion he,
          fun hcc => Except.noConfusion ((e4 ha hb hc).mpr hcc)⟩
      · intro ha hb hc hd
        rw [hnone]
        exact ⟨fun he => Option.noConfusion he,
          fun hcc => Except.noConfusion ((e5 ha hb hc hd).mpr hcc)⟩

/-- Claim C4 witness: flipping in the stored terminal session 3 is rejected
with GameNotActive and the store is unchanged. -/
theorem C4_witness :
    (flip_card_tx verify_card_reveal_proof c4Store 3 10 0 0 [] []).2
      = some Error.GameNotActive
    ∧ (flip_card_tx verify_card_reveal_proof c4Store 3 10 0 0 [] []).1 = c4Store := by
  have h := C4_rejection_taxonomy verify_card_reveal_proof c4Store 3 10 0 0 [] [] c4Game rfl
  have h2 := h.2.1.mpr rfl
  exact ⟨h2, h.1 Error.GameNotActive h2⟩

/- Section: Claim C5 -/

/-- Claim C5: an accepted flip leaves the session terminal (is_active = false)
exactly when pairs_found has reached 8 = 16 / 2, the Game Hub end_game
notification is issued exactly then, its boolean argument is score1 > score2
(strictly higher score wins, equality is a tie), and sessions are created
active, so completion by flips is the only termination. -/
theorem C5_termination (g : GameState) (caller position revealed_value : Nat)
    (proof public_inputs : List Nat) (r : FlipResult)
    (hok : flip_card g caller position revealed_value proof public_inputs = Except.ok r) :
    (r.game.is_active = false ↔ r.game.pairs_found = 8)
    ∧ (r.end_game_call ≠ none ↔ r.game.pairs_found = 8)
    ∧ (∀ w, r.end_game_call = some w → (w = true ↔ r.game.score2 < r.game.score1))
    ∧ (∀ sid p1 p2 c, ∀ a b : Int, (start_game sid p1 p2 a b c).is_active = true) := by
  obtain ⟨hact, -, -, -, -, hr⟩ := flip_ok_elim hok
  subst hr
  have hactive1 : (apply_flip_logic g position revealed_value).is_active = true := by
    rw [apply_flip_logic_is_active]
    exact hact
  obtain ⟨hs1, hs2, hp, -⟩ := finish_flip_fields (apply_flip_logic g position revealed_value)
  have hend := finish_flip_end_call (apply_flip_logic g position revealed_value)
  refine ⟨?_, ?_, ?_, fun sid p1 p2 c a b => rfl⟩
  · rw [hp]
    exact finish_flip_is_active (apply_flip_logic g position revealed_value) hactive1
  · rw [hp, hend]
    split <;> simp_all
  · intro w hw
    rw [hend] at hw
    rw [hs1, hs2]
    split at hw
    · rw [Option.some.injEq] at hw
      subst hw
      simp [Nat.lt_iff_add_one_le]
    · exact absurd hw (by simp)

/-- Claim C5 witness: completing the last pair of c5Game deactivates the
session and reports player1_won = true (score 5 against 3). -/
theorem C5_witness :
    (flipOutcomeOf c5Game 10 1 1 [] []).game.is_active = false
    ∧ (flipOutcomeOf c5Game 10 1 1 [] []).end_game_call = some true := by
  have h := C5_termination c5Game 10 1 1 [] [] (flipOutcomeOf c5Game 10 1 1 [] []) rfl
  refine ⟨h.1.mpr (by decide), ?_⟩
  have hb : (flipOutcomeOf c5Game 10 1 1 [] []).end_game_call = some true := by decide
  exact hb

/- Section: Claim C6 -/

/-- Claim C6: the pending flip is the single optional slot of the session:
none at creation, consistently paired with its value in every reachable state,
set by an accepted first flip to (position, revealed_value) without advancing
the turn and without touching cards or scores, and cleared to none by every
accepted second flip. -/
theorem C6_pending_flip :
    (∀ sid p1 p2 c, ∀ a b : Int,
        (start_game sid p1 p2 a b c).flip_one = none
        ∧ (start_game sid p1 p2 a b c).flip_one_value = none)
    ∧ (∀ g, Reachable g → (g.flip_one = none ↔ g.flip_one_value = none))
    ∧ (∀ g caller position revealed_value, ∀ proof public_inputs : List Nat, ∀ r,
        flip_card g caller position revealed_value proof public_inputs = Except.ok r →
        g.flip_one = none →
        r.game.flip_one = some position ∧ r.game.flip_one_value = some revealed_value
        ∧ r.game.current_turn = g.current_turn ∧ r.game.cards = g.cards
        ∧ r.game.score1 = g.score1 ∧ r.game.score2 = g.score2
        ∧ r.game.pairs_found = g.pairs_found)
    ∧ (∀ g caller position revealed_value, ∀ proof public_inputs : List Nat, ∀ r pos_a,
        flip_card g caller position revealed_value proof public_inputs = Except.ok r →
        g.flip_one = some pos_a →
        r.game.flip_one = none ∧ r.game.flip_one_value = none) := by
  have hfirst : ∀ (g : GameState) caller position revealed_value,
      ∀ proof public_inputs : List Nat, ∀ r,
      flip_card g caller position revealed_value proof public_inputs = Except.ok r →
      g.flip_one = none →
      r.game.flip_one = some position ∧ r.game.flip_one_value = some revealed_value
      ∧ r.game.current_turn = g.current_turn ∧ r.game.cards = g.cards
      ∧ r.game.score1 = g.score1 ∧ r.game.score2 = g.score2
      ∧ r.game.pairs_found = g.pairs_found := by
    intro g caller position revealed_value proof public_inputs r hok hnone
    obtain ⟨-, -, -, -, -, hr⟩ := flip_ok_elim hok
    subst hr
    obtain ⟨hs1, hs2, hp, hc, ht, hf1, hf2, -⟩ :=
      finish_flip_fields (apply_flip_logic g position revealed_value)
    rw [hs1, hs2, hp, hc, ht, hf1, hf2,
      apply_flip_logic_first g position revealed_value hnone]
    exact ⟨rfl, rfl, rfl, rfl, rfl, rfl, rfl⟩
  have hsecond : ∀ (g : GameState) caller position revealed_value,
      ∀ proof public_inputs : List Nat, ∀ r pos_a,
      flip_card g caller position revealed_value proof public_inputs = Except.ok r →
      g.flip_one = some pos_a →
      r.game.flip_one = none ∧ r.game.flip_one_value = none := by
    intro g caller position revealed_value proof public_inputs r pos_a hok hsome
    obtain ⟨-, -, -, -, -, hr⟩ := flip_ok_elim hok
    subst hr
    obtain ⟨-, -, -, -, -, hf1, hf2, -⟩ :=
      finish_flip_fields (apply_flip_logic g position revealed_value)
    rw [hf1, hf2]
    exact apply_flip_logic_second_clears g position revealed_value pos_a hsome
  refine ⟨fun sid p1 p2 c a b => ⟨rfl, rfl⟩, ?_, hfirst, hsecond⟩
  intro g hreach
  induction hreach with
  | start sid p1 p2 a b c => simp [start_game]
  | flip g caller position revealed_value proof public_inputs r hg hok ih =>
      cases hfo : g.flip_one with
      | none =>
          obtain ⟨h1, h2, -⟩ := hfirst g caller position revealed_value proof public_inputs r
            hok hfo
          rw [h1, h2]
          simp
      | some pos_a =>
          obtain ⟨h1, h2⟩ := hsecond g caller position revealed_value proof public_inputs r
            pos_a hok hfo
          rw [h1, h2]

/-- Claim C6 witness: instantiated on the demo trace — the pending slot is
empty at creation, holds (0, 0) after the accepted first flip, and is empty
again after the second. -/
theorem C6_witness :
    (demo_start.flip_one = none ↔ demo_start.flip_one_value = none)
    ∧ (flipOutcomeOf demo_start 10 0 0 [] []).game.flip_one = some 0
    ∧ (flipOutcomeOf demo_pending 10 1 0 [] []).game.flip_one = none := by
  refine ⟨C6_pending_flip.2.1 demo_start (Reachable.start 1 10 20 0 0 5), ?_, ?_⟩
  · exact (C6_pending_flip.2.2.1 demo_start 10 0 0 [] []
      (flipOutcomeOf demo_start 10 0 0 [] []) rfl (by decide)).1
  · exact (C6_pending_flip.2.2.2 demo_pending 10 1 0 [] []
      (flipOutcomeOf demo_pending 10 1 0 [] []) 0 rfl (by decide)).1

/- Section: Claim C8 -/

/-- Claim C8 counterexample: start_game performs no distinctness check on the
two player identifiers — called with player1 = player2 = 7 it creates (and
stores) an active session rather than rejecting, and that session is a
reachable state of the machine. -/
theorem C8_counterexample :
    self_play_session.player1 = self_play_session.player2
    ∧ self_play_session.is_active = true
    ∧ Reachable self_play_session :=
  ⟨rfl, rfl, Reachable.start 6 7 7 0 0 99⟩

/-- Claim C8 (amended): session creation does not require the two player
identifiers to differ: for every session id, stake pair and commitment,
start_game with player1 = player2 returns an active, fully initialized
session for that single address; no identity-violation rejection exists (the
error enum has no such code). -/
theorem C8_no_self_play_check (sid p : Nat) (a b : Int) (c : Nat) :
    (start_game sid p p a b c).is_active = true
    ∧ (start_game sid p p a b c).player1 = (start_game sid p p a b c).player2
    ∧ (start_game sid p p a b c).current_turn = p
    ∧ (start_game sid p p a b c).cards = List.replicate 16 CardState.FaceDown :=
  ⟨rfl, rfl, rfl, rfl⟩

/- Section: Sanity of the SHA-256 embedding -/

/-- The FIPS 180-4 test vector: the embedded SHA-256 hashes the three bytes
of the string abc to the published digest. -/
theorem sha256_test_vector :
    sha256 (asciiBytes "abc") =
      [186, 120, 22, 191, 143, 1, 207, 234, 65, 65, 64,
       222, 93, 174, 34, 35, 176, 3, 97, 163, 150, 23,
       122, 156, 180, 16, 255, 97, 242, 0, 21, 173] := by
  decide

/- Section: Helper lemmas on the retry loop -/

theorem runFlip_attempts_le (env : Nat → AttemptResult) (k r : Nat) :
    (runFlipAttempts env k r).attempts ≤ r := by
  induction r generalizing k with
  | zero => simp [runFlipAttempts]
  | succ r ih =>
      cases henv : env k
      case success => simp [runFlipAttempts, henv]
      case notYourTurn => simp [runFlipAttempts, henv]
      case otherFailure => simp [runFlipAttempts, henv]
      case tryAgainLater =>
        by_cases hr : 0 < r
        · simp only [runFlipAttempts, henv, if_pos hr]
          have := ih (k + 1)
          omega
        · simp [runFlipAttempts, henv, if_neg hr]
      case txBadSeq =>
        by_cases hr : 0 < r
        · simp only [runFlipAttempts, henv, if_pos hr]
          have := ih (k + 1)
          omega
        · simp [runFlipAttempts, henv, if_neg hr]

theorem runFlip_attempts_pos (env : Nat → AttemptResult) (k r : Nat) (h : 1 ≤ r) :
    1 ≤ (runFlipAttempts env k r).attempts := by
  cases r with
  | zero => omega
  | succ r =>
      cases henv : env k
      case success => simp [runFlipAttempts, henv]
      case notYourTurn => simp [runFlipAttempts, henv]
      case otherFailure => simp [runFlipAttempts, henv]
      case tryAgainLater =>
        by_cases hr : 0 < r
        · simp [runFlipAttempts, henv, if_pos hr]
        · simp [runFlipAttempts, henv, if_neg hr]
      case txBadSeq =>
        by_cases hr : 0 < r
        · simp [runFlipAttempts, henv, if_pos hr]
        · simp [runFlipAttempts, henv, if_neg hr]

theorem runFlip_nonfinal_transient (env : Nat → AttemptResult) (k r : Nat) :
    ∀ i, i + 1 < (runFlipAttempts env k r).attempts → isTransient (env (k + i)) = true := by
  induction r generalizing k with
  | zero =>
      intro i hi
      simp [runFlipAttempts] at hi
  | succ r ih =>
      intro i hi
      cases henv : env k
      case success => simp [runFlipAttempts, henv] at hi
      case notYourTurn => simp [runFlipAttempts, henv] at hi
      case otherFailure => simp [runFlipAttempts, henv] at hi
      case tryAgainLater =>
        by_cases hr : 0 < r
        · simp only [runFlipAttempts, henv, if_pos hr] at hi
          cases i with
          | zero => simp [isTransient, henv]
          | succ j =>
              have hj : j + 1 < (runFlipAttempts env (k + 1) r).attempts := by
                simp at hi
                omega
              have := ih (k + 1) j hj
              have harith : k + 1 + j = k + (j + 1) := by omega
              rwa [harith] at this
        · simp [runFlipAttempts, henv, if_neg hr] at hi
      case txBadSeq =>
        by_cases hr : 0 < r
        · simp only [runFlipAttempts, henv, if_pos hr] at hi
          cases i with
          | zero => simp [isTransient, henv]
          | succ j =>
              have hj : j + 1 < (runFlipAttempts env (k + 1) r).attempts := by
                simp at hi
                omega
              have := ih (k + 1) j hj
              have harith : k + 1 + j = k + (j + 1) := by omega
              rwa [harith] at this
        · simp [runFlipAttempts, henv, if_neg hr] at hi

theorem runFlip_delays (env : Nat → AttemptResult) (k r : Nat) :
    (runFlipAttempts env k r).delays =
      (List.range ((runFlipAttempts env k r).attempts - 1)).map
        (fun i => 1000 * (4 - (r - 1 - i))) := by
  induction r generalizing k with
  | zero => simp [runFlipAttempts]
  | succ r ih =>
      cases henv : env k
      case success => simp [runFlipAttempts, henv]
      case notYourTurn => simp [runFlipAttempts, henv]
      case otherFailure => simp [runFlipAttempts, henv]
      case tryAgainLater =>
        by_cases hr : 0 < r
        · simp only [runFlipAttempts, henv, if_pos hr]
          have hpos := runFlip_attempts_pos env (k + 1) r hr
          obtain ⟨m, hm⟩ : ∃ m, (runFlipAttempts env (k + 1) r).attempts = m + 1 :=
            ⟨(runFlipAttempts env (k + 1) r).attempts - 1, by omega⟩
          have htail := ih (k + 1)
          rw [hm] at htail
          simp only [htail, hm, Nat.add_sub_cancel, Nat.add_sub_cancel_left]
          have hfun : List.map ((fun i => 1000 * (4 - (r - i))) ∘ Nat.succ) (List.range m)
              = List.map (fun i => 1000 * (4 - (r - 1 - i))) (List.range m) := by
            apply List.map_congr_left
            intro a ha
            simp only [Function.comp_apply]
            congr 1
            omega
          have hhead : 1000 * (4 - (r - 0)) = 1000 * (4 - r) := by omega
          rw [List.range_succ_eq_map, List.map_cons, List.map_map, hhead, hfun]
        · simp [runFlipAttempts, henv, if_neg hr]
      case txBadSeq =>
        by_cases hr : 0 < r
        · simp only [runFlipAttempts, henv, if_pos hr]
          have hpos := runFlip_attempts_pos env (k + 1) r hr
          obtain ⟨m, hm⟩ : ∃ m, (runFlipAttempts env (k + 1) r).attempts = m + 1 :=
            ⟨(runFlipAttempts env (k + 1) r).attempts - 1, by omega⟩
          have htail := ih (k + 1)
          rw [hm] at htail
          simp only [htail, hm, Nat.add_sub_cancel, Nat.add_sub_cancel_left]
          have hfun : List.map ((fun i => 1000 * (4 - (r - i))) ∘ Nat.succ) (List.range m)
              = List.map (fun i => 1000 * (4 - (r - 1 - i))) (List.range m) := by
            apply List.map_congr_left
            intro a ha
            simp only [Function.comp_apply]
            congr 1
            omega
          have hhead : 1000 * (4 - (r - 0)) = 1000 * (4 - r) := by omega
          rw [List.range_succ_eq_map, List.map_cons, List.map_map, hhead, hfun]
        · simp [runFlipAttempts, henv, if_neg hr]

theorem runFlip_outcome_chars (env : Nat → AttemptResult) (k r : Nat) (h : 1 ≤ r) :
    ((runFlipAttempts env k r).outcome = FlipOutcome.staleStateRetry ↔
      env (k + ((runFlipAttempts env k r).attempts - 1)) = AttemptResult.notYourTurn)
    ∧ ((runFlipAttempts env k r).refreshedState = true ↔
      (runFlipAttempts env k r).outcome = FlipOutcome.staleStateRetry)
    ∧ ((runFlipAttempts env k r).outcome = FlipOutcome.flipped ↔
      env (k + ((runFlipAttempts env k r).attempts - 1)) = AttemptResult.success) := by
  induction r generalizing k with
  | zero => omega
  | succ r ih =>
      cases henv : env k
      case success => simp [runFlipAttempts, henv]
      case notYourTurn => simp [runFlipAttempts, henv]
      case otherFailure => simp [runFlipAttempts, henv]
      case tryAgainLater =>
        by_cases hr : 0 < r
        · simp only [runFlipAttempts, henv, if_pos hr]
          have hpos := runFlip_attempts_pos env (k + 1) r hr
          have hrec := ih (k + 1) hr
          have harith : k + ((runFlipAttempts env (k + 1) r).attempts + 1 - 1) =
              k + 1 + ((runFlipAttempts env (k + 1) r).attempts - 1) := by omega
          rw [harith]
          exact hrec
        · simp [runFlipAttempts, henv, if_neg hr]
      case txBadSeq =>
        by_cases hr : 0 < r
        · simp only [runFlipAttempts, henv, if_pos hr]
          have hpos := runFlip_attempts_pos env (k + 1) r hr
          have hrec := ih (k + 1) hr
          have harith : k + ((runFlipAttempts env (k + 1) r).attempts + 1 - 1) =
              k + 1 + ((runFlipAttempts env (k + 1) r).attempts - 1) := by omega
          rw [harith]
          exact hrec
        · simp [runFlipAttempts, henv, if_neg hr]

/- Section: Claim C7 -/

set_option maxRecDepth 100000 in
/-- Claim C7 counterexample: for the deck [0,1,0,1] with a concrete UUID salt,
the digest the dealer publishes (SHA-256 of the JSON text, 256 bits) is
numerically at least the BN254 scalar modulus, while every value the circuit's
commitment function can produce is an element of that field — so no circuit
commitment function whatsoever matches the published digest at this input:
the publishing function and the circuit function are not the same function. -/
theorem C7_counterexample :
    ¬ ∃ f : PedersenCommitmentFn,
        beNat (generateCommitment c7Deck c7Salt) = f.commit c7Deck (saltToField c7Salt) := by
  rintro ⟨f, hf⟩
  have hlt := f.commit_lt c7Deck (saltToField c7Salt)
  rw [← hf] at hlt
  have hge : bn254ScalarModulus ≤ beNat (generateCommitment c7Deck c7Salt) := by decide
  exact absurd hlt (not_lt.mpr hge)

/-- Claim C7 (amended): the client's publishing commitment (SHA-256 over the
JSON text) and the circuit's commitment (a BN254 field element) are different
functions: whenever the published digest lies outside the scalar field —
which the concrete witness below shows does happen on real inputs — it cannot
equal the circuit's commitment for the same deck and salt, under any
instantiation of the circuit's hash. -/
theorem C7_commitment_mismatch (f : PedersenCommitmentFn) (deck : List Nat) (salt : String)
    (h : bn254ScalarModulus ≤ beNat (generateCommitment deck salt)) :
    beNat (generateCommitment deck salt) ≠ f.commit deck (saltToField salt) := by
  intro he
  have hlt := f.commit_lt deck (saltToField salt)
  rw [← he] at hlt
  exact absurd hlt (not_lt.mpr h)

set_option maxRecDepth 100000 in
/-- Claim C7 witness: the mismatch theorem applied at the concrete deck and
salt, against the concrete inhabitant of the modelled circuit interface. -/
theorem C7_witness :
    bn254ScalarModulus ≤ beNat (generateCommitment c7Deck c7Salt)
    ∧ beNat (generateCommitment c7Deck c7Salt)
        ≠ trivialPedersenFn.commit c7Deck (saltToField c7Salt) :=
  ⟨by decide, C7_commitment_mismatch trivialPedersenFn c7Deck c7Salt (by decide)⟩

/- Section: Claim C9 -/

set_option maxRecDepth 1000000 in
/-- Claim C9 counterexample: two runs of the pipeline with the same salt and
different decks produce deck-data payloads that do NOT differ only in the
commitment: there is no decomposition into a shared prefix, the commitment
hex, and a shared suffix, because the payloads already differ inside their
deck section (byte 9) as well as in the commitment section, two positions
more than 64 bytes apart. -/
theorem C9_counterexample :
    ¬ RunsDifferOnlyInCommitment
        (exportedDeckData c7Deck c7Salt) (exportedDeckData c9Deck2 c7Salt)
        (bytesToHex (generateCommitment c7Deck c7Salt))
        (bytesToHex (generateCommitment c9Deck2 c7Salt)) := by
  rintro ⟨pre, post, hp1, hp2⟩
  rw [List.append_assoc] at hp1 hp2
  have hh1 : (bytesToHex (generateCommitment c7Deck c7Salt)).length = 64 := by decide
  have hh2 : (bytesToHex (generateCommitment c9Deck2 c7Salt)).length = 64 := by decide
  have htake : (exportedDeckData c7Deck c7Salt).take 10
      ≠ (exportedDeckData c9Deck2 c7Salt).take 10 := by decide
  have hdrop : (exportedDeckData c7Deck c7Salt).drop 73
      ≠ (exportedDeckData c9Deck2 c7Salt).drop 73 := by decide
  have hpre : pre.length ≤ 9 := by
    by_contra hlong
    push_neg at hlong
    have t1 : (exportedDeckData c7Deck c7Salt).take 10 = pre.take 10 := by
      rw [hp1, List.take_append_eq_append_take, Nat.sub_eq_zero_of_le (by omega),
        List.take_zero, List.append_nil]
    have t2 : (exportedDeckData c9Deck2 c7Salt).take 10 = pre.take 10 := by
      rw [hp2, List.take_append_eq_append_take, Nat.sub_eq_zero_of_le (by omega),
        List.take_zero, List.append_nil]
    exact htake (t1.trans t2.symm)
  have hd1 : (exportedDeckData c7Deck c7Salt).drop (pre.length + 64) = post := by
    rw [hp1, List.drop_append_eq_append_drop,
      List.drop_eq_nil_of_le (by omega), List.nil_append, Nat.add_sub_cancel_left,
      List.drop_append_eq_append_drop, List.drop_eq_nil_of_le (by omega),
      List.nil_append, hh1, Nat.sub_self, List.drop_zero]
  have hd2 : (exportedDeckData c9Deck2 c7Salt).drop (pre.length + 64) = post := by
    rw [hp2, List.drop_append_eq_append_drop,
      List.drop_eq_nil_of_le (by omega), List.nil_append, Nat.add_sub_cancel_left,
      List.drop_append_eq_append_drop, List.drop_eq_nil_of_le (by omega),
      List.nil_append, hh2, Nat.sub_self, List.drop_zero]
  have hk : 73 = (pre.length + 64) + (9 - pre.length) := by omega
  have e1 : (exportedDeckData c7Deck c7Salt).drop 73 = post.drop (9 - pre.length) := by
    rw [hk, ← List.drop_drop, hd1]
  have e2 : (exportedDeckData c9Deck2 c7Salt).drop 73 = post.drop (9 - pre.length) := by
    rw [hk, ← List.drop_drop, hd2]
  exact hdrop (e1.trans e2.symm)

/-- Claim C9 (amended): the deck-data payload the development pipeline
produces for transmission is not a function of the commitment only: it embeds
the JSON rendering of the full private deck and the salt verbatim (the
in-code comment defers encryption to production), so the payload determines
deck and salt completely. -/
theorem C9_payload_carries_deck_and_salt (deck : List Nat) (salt : String) :
    List.IsInfix (List.intercalate [44] (deck.map renderNat)) (exportedDeckData deck salt)
    ∧ List.IsInfix (asciiBytes salt) (exportedDeckData deck salt) := by
  constructor
  · exact ⟨asciiBytes "\x7b\"deck\":[",
      asciiBytes "],\"salt\":\"" ++ asciiBytes salt
        ++ asciiBytes "\",\"commitment\":\"" ++ bytesToHex (generateCommitment deck salt)
        ++ asciiBytes "\"\x7d",
      by simp [exportedDeckData, deckDataJson, List.append_assoc]⟩
  · exact ⟨asciiBytes "\x7b\"deck\":[" ++ List.intercalate [44] (deck.map renderNat)
        ++ asciiBytes "],\"salt\":\"",
      asciiBytes "\",\"commitment\":\"" ++ bytesToHex (generateCommitment deck salt)
        ++ asciiBytes "\"\x7d",
      by simp [exportedDeckData, deckDataJson, List.append_assoc]⟩

/- Section: Claim C10 -/

/-- Claim C10: the flip-submission loop makes at least one and at most 3
attempts; every attempt that was followed by another had failed transiently
(TRY_AGAIN_LATER or txBadSeq); the waits between attempts follow the growing
backoff schedule 2000 ms then 3000 ms and are strictly increasing; the run
ends in the stale-state outcome exactly when the final attempt was rejected
with NotYourTurn, in which case (and only then) the session state is
re-fetched rather than the submission retried; and the run succeeds exactly
when the final attempt succeeded — every other error is surfaced without
retry. -/
theorem C10_retry_discipline (env : Nat → AttemptResult) :
    1 ≤ (handleFlipCardRetries env).attempts
    ∧ (handleFlipCardRetries env).attempts ≤ 3
    ∧ (∀ i, i + 1 < (handleFlipCardRetries env).attempts → isTransient (env i) = true)
    ∧ (handleFlipCardRetries env).delays =
        (List.range ((handleFlipCardRetries env).attempts - 1)).map (fun i => 2000 + 1000 * i)
    ∧ List.Chain' (fun a b => a < b) (handleFlipCardRetries env).delays
    ∧ ((handleFlipCardRetries env).outcome = FlipOutcome.staleStateRetry ↔
        env ((handleFlipCardRetries env).attempts - 1) = AttemptResult.notYourTurn)
    ∧ ((handleFlipCardRetries env).refreshedState = true ↔
        (handleFlipCardRetries env).outcome = FlipOutcome.staleStateRetry)
    ∧ ((handleFlipCardRetries env).outcome = FlipOutcome.flipped ↔
        env ((handleFlipCardRetries env).attempts - 1) = AttemptResult.success) := by
  have hle := runFlip_attempts_le env 0 3
  have hpos := runFlip_attempts_pos env 0 3 (by omega)
  have htrans := runFlip_nonfinal_transient env 0 3
  have hdel := runFlip_delays env 0 3
  have hchars := runFlip_outcome_chars env 0 3 (by omega)
  simp only [handleFlipCardRetries]
  refine ⟨hpos, hle, ?_, ?_, ?_, ?_, ?_, ?_⟩
  · intro i hi
    have := htrans i hi
    simpa using this
  · rw [hdel]
    apply List.map_congr_left
    intro a ha
    rw [List.mem_range] at ha
    omega
  · rw [hdel]
    rcases hc : (runFlipAttempts env 0 3).attempts - 1 with _ | n
    · simp
    · rcases n with _ | n
      · simp [List.range_succ, List.chain'_cons, List.chain'_singleton]
      · rcases n with _ | n
        · simp [List.range_succ, List.chain'_cons, List.chain'_singleton]
        · omega
  · have := hchars.1
    simpa using this
  · exact hchars.2.1
  · have := hchars.2.2
    simpa using this

/-- Claim C10 witness: in the all-transient environment the loop makes its
full budget of 3 attempts, the first attempt's error is transient, and the
delays are exactly 2000 ms then 3000 ms. -/
theorem C10_witness :
    isTransient (envAllTransient 0) = true
    ∧ (handleFlipCardRetries envAllTransient).attempts ≤ 3
    ∧ (handleFlipCardRetries envAllTransient).delays = [2000, 3000] := by
  have h := C10_retry_discipline envAllTransient
  refine ⟨h.2.2.1 0 (by decide), h.2.1, ?_⟩
  rw [h.2.2.2.1]
  decide

end ZkMemory
